import Mathlib

/-!
Verification of the acad-service IPS calculator (acad-service/main.py).

The service exposes two read endpoints: a student list pass-through
(get_mahasiswas) and a per-student grade-point-average computation
(get_ips).  We embed the Python code shallowly: database rows become
lists of records, Python strings become Lean strings manipulated via
their character lists, Python float arithmetic on the quarter-point
grade weights becomes exact rational arithmetic, and the HTTPException
control flow becomes an Except value.
-/

namespace AcadService

/-- Whitespace test used by the Python str.strip default
(space, tab, newline, carriage return, vertical tab, form feed). -/
def py_isSpace (c : Char) : Bool :=
  decide (c.toNat = 32 ∨ c.toNat = 9 ∨ c.toNat = 10 ∨ c.toNat = 13 ∨
    c.toNat = 11 ∨ c.toNat = 12)

/-- ASCII uppercase of one character, as Python str.upper acts on the
grade tokens in play. -/
def py_toUpper (c : Char) : Char :=
  if 97 ≤ c.toNat ∧ c.toNat ≤ 122 then Char.ofNat (c.toNat - 32) else c

/-- Python str.strip: drop whitespace from both ends. -/
def py_strip (s : String) : String :=
  ⟨List.rdropWhile py_isSpace (s.data.dropWhile py_isSpace)⟩

/-- Python str.upper. -/
def py_upper (s : String) : String :=
  ⟨s.data.map py_toUpper⟩

/-- The normalization applied to each grade token in get_ips, line 130:
str(row[3]).strip().upper(). -/
def normalize (s : String) : String :=
  py_upper (py_strip s)

/-- The fixed grade weight table bobot_nilai of main.py lines 111-121,
as an ordered association list (Python dicts preserve insertion order,
which the error message relies on). -/
def bobot_nilai : List (String × ℚ) :=
  [("A", 4), ("A-", 15/4), ("B+", 7/2), ("B", 3), ("B-", 11/4),
   ("C+", 5/2), ("C", 2), ("D", 1), ("E", 0)]

/-- Dictionary lookup, mirroring the membership test and indexing on
bobot_nilai. -/
def lookupW : List (String × ℚ) → String → Option ℚ
  | [], _ => none
  | (k, v) :: rest, g => if g = k then some v else lookupW rest g

/-- list(bobot_nilai.keys()) of the error message on line 136. -/
def grade_keys : List String :=
  bobot_nilai.map Prod.fst

/-- Round half to even at the integer, as Python round does. -/
def roundHalfEven (q : ℚ) : ℤ :=
  let f := ⌊q⌋
  let r := q - f
  if r < 1/2 then f
  else if 1/2 < r then f + 1
  else if f % 2 = 0 then f else f + 1

/-- Python round(x, 2): round to two decimal places, half to even. -/
def round2 (q : ℚ) : ℚ :=
  (roundHalfEven (100 * q) : ℚ) / 100

/-- One row of the join query of get_ips (m.nim, m.nama, m.jurusan,
krs.nilai, mk.sks), with mk.sks already through int(row[4]). -/
structure KrsRow where
  nim : String
  nama : String
  jurusan : String
  nilai : String
  sks : ℤ
deriving DecidableEq

/-- One entry of the detail_perhitungan list built on lines 143-148. -/
structure IpsDetail where
  nilai : String
  sks : ℤ
  bobot : ℚ
  bobot_x_sks : ℚ
deriving DecidableEq

/-- The success JSON body of get_ips, lines 155-163. -/
structure IpsResult where
  nim : String
  nama : String
  jurusan : String
  total_sks : ℤ
  total_bobot : ℚ
  ips : ℚ
  detail_perhitungan : List IpsDetail
deriving DecidableEq

/-- The three HTTPException raises reachable from the row-processing
logic of get_ips, by raise site. -/
inductive IpsError where
  /-- line 109: 404, data KRS untuk NIM not found -/
  | notFound (nim : String)
  /-- lines 134-137: 400, naming the offending token and the key list -/
  | invalidGrade (token : String) (accepted : List String)
  /-- line 151: 400, total SKS is zero -/
  | zeroCreditHours
deriving DecidableEq

/-- HTTP status code attached to each raise site. -/
def statusOf : IpsError → ℕ
  | .notFound _ => 404
  | .invalidGrade _ _ => 400
  | .zeroCreditHours => 400

/-- The for-loop of get_ips lines 129-148: accumulating total_sks,
total_bobot and the detail list, aborting at the first unknown grade. -/
def processRows : List KrsRow → ℤ → ℚ → List IpsDetail →
    Except IpsError (ℤ × ℚ × List IpsDetail)
  | [], total_sks, total_bobot, detail => .ok (total_sks, total_bobot, detail)
  | r :: rest, total_sks, total_bobot, detail =>
    let nilai_huruf := normalize r.nilai
    let sks := r.sks
    match lookupW bobot_nilai nilai_huruf with
    | none => .error (.invalidGrade nilai_huruf grade_keys)
    | some bobot =>
        processRows rest (total_sks + sks) (total_bobot + bobot * (sks : ℚ))
          (detail ++ [⟨nilai_huruf, sks, bobot, round2 (bobot * (sks : ℚ))⟩])

/-- get_ips of main.py lines 86-163, after the join query returned
rows: the 404 guard, the grade loop, the zero-SKS guard, and the
response assembly with its roundings. -/
def get_ips (nim : String) (rows : List KrsRow) : Except IpsError IpsResult :=
  match rows with
  | [] => .error (.notFound nim)
  | r0 :: _ =>
    match processRows rows 0 0 [] with
    | .error e => .error e
    | .ok (total_sks, total_bobot, detail) =>
      if total_sks = 0 then .error .zeroCreditHours
      else
        .ok { nim := r0.nim, nama := r0.nama, jurusan := r0.jurusan,
              total_sks := total_sks, total_bobot := round2 total_bobot,
              ips := round2 (total_bobot / (total_sks : ℚ)),
              detail_perhitungan := detail }

/-- One row of SELECT * FROM mahasiswa, in column order. -/
structure MhsRow where
  nim : String
  nama : String
  jurusan : String
  angkatan : ℤ
deriving DecidableEq

/-- get_mahasiswas of main.py lines 71-84: the per-row dict rebuild
of line 82. -/
def get_mahasiswas (rows : List MhsRow) : List MhsRow :=
  rows.map fun row => ⟨row.nim, row.nama, row.jurusan, row.angkatan⟩

/-- Sum of the credit hours of a row list (the final total_sks). -/
def sumSks (rows : List KrsRow) : ℤ :=
  (rows.map KrsRow.sks).sum

/-- Weight of the normalized grade of a row, defaulting to 0 (only used
under the hypothesis that the grade is in the table). -/
def rowWeight (r : KrsRow) : ℚ :=
  (lookupW bobot_nilai (normalize r.nilai)).getD 0

/-- Unrounded sum of weight times credit hours (the final total_bobot
before rounding). -/
def sumBobot (rows : List KrsRow) : ℚ :=
  (rows.map fun r => rowWeight r * (r.sks : ℚ)).sum

/-- The detail record list a fully valid row list produces. -/
def detailOf (rows : List KrsRow) : List IpsDetail :=
  rows.map fun r =>
    ⟨normalize r.nilai, r.sks, rowWeight r, round2 (rowWeight r * (r.sks : ℚ))⟩

/-- A row whose normalized grade is in the weight table. -/
def validRow (r : KrsRow) : Prop :=
  (lookupW bobot_nilai (normalize r.nilai)).isSome

instance (r : KrsRow) : Decidable (validRow r) := by
  unfold validRow; infer_instance

/-- A row with its grade token replaced by the normalized form. -/
def normRow (r : KrsRow) : KrsRow :=
  ⟨r.nim, r.nama, r.jurusan, normalize r.nilai, r.sks⟩

/-! Character-level facts about the Python string primitives. -/

theorem toNat_ofNat_lt (n : ℕ) (h : n < 55296) : (Char.ofNat n).toNat = n := by
  unfold Char.ofNat
  rw [dif_pos (Or.inl h)]
  rfl

theorem toNat_py_toUpper_of_lower (c : Char) (h97 : 97 ≤ c.toNat)
    (h122 : c.toNat ≤ 122) : (py_toUpper c).toNat = c.toNat - 32 := by
  unfold py_toUpper
  rw [if_pos ⟨h97, h122⟩, toNat_ofNat_lt (c.toNat - 32) (by omega)]

theorem py_toUpper_of_not_lower (c : Char)
    (h : ¬(97 ≤ c.toNat ∧ c.toNat ≤ 122)) : py_toUpper c = c := by
  simp only [py_toUpper]
  rw [if_neg h]

theorem py_isSpace_py_toUpper (c : Char) :
    py_isSpace (py_toUpper c) = py_isSpace c := by
  by_cases h : 97 ≤ c.toNat ∧ c.toNat ≤ 122
  · have ht : (py_toUpper c).toNat = c.toNat - 32 :=
      toNat_py_toUpper_of_lower c h.1 h.2
    simp only [py_isSpace, ht, decide_eq_decide]
    omega
  · rw [py_toUpper_of_not_lower c h]

theorem py_toUpper_py_toUpper (c : Char) :
    py_toUpper (py_toUpper c) = py_toUpper c := by
  by_cases h : 97 ≤ c.toNat ∧ c.toNat ≤ 122
  · apply py_toUpper_of_not_lower
    rw [toNat_py_toUpper_of_lower c h.1 h.2]
    omega
  · simp only [py_toUpper_of_not_lower c h]

/-! List-level facts about stripping and uppercasing. -/

/-- The double-ended trim on character lists underlying py_strip. -/
def trimList (l : List Char) : List Char :=
  List.rdropWhile py_isSpace (l.dropWhile py_isSpace)

theorem py_strip_data (s : String) : (py_strip s).data = trimList s.data := rfl

theorem py_upper_data (s : String) : (py_upper s).data = s.data.map py_toUpper := rfl

theorem trimList_map_upper (l : List Char) :
    trimList (l.map py_toUpper) = (trimList l).map py_toUpper := by
  have hpu : (py_isSpace ∘ py_toUpper) = py_isSpace := by
    funext c; exact py_isSpace_py_toUpper c
  unfold trimList List.rdropWhile
  rw [List.dropWhile_map, hpu, ← List.map_reverse, List.dropWhile_map, hpu,
    ← List.map_reverse]

theorem get_zero_of_pref {α : Type} (l₁ l₂ : List α) (h : l₁ <+: l₂)
    (h1 : 0 < l₁.length) (h2 : 0 < l₂.length) :
    l₂.get ⟨0, h2⟩ = l₁.get ⟨0, h1⟩ := by
  obtain ⟨t, rfl⟩ := h
  cases l₁ with
  | nil => simp at h1
  | cons a l => rfl

theorem dropWhile_trimList (l : List Char) :
    List.dropWhile py_isSpace (trimList l) = trimList l := by
  unfold trimList
  rw [List.dropWhile_eq_self_iff]
  intro hl
  have hpre := List.rdropWhile_prefix py_isSpace (l.dropWhile py_isSpace)
  have hlen : 0 < (l.dropWhile py_isSpace).length :=
    lt_of_lt_of_le hl hpre.length_le
  have hget := List.dropWhile_get_zero_not py_isSpace l hlen
  rw [get_zero_of_pref _ _ hpre hl hlen] at hget
  exact hget

theorem trimList_trimList (l : List Char) : trimList (trimList l) = trimList l := by
  conv_lhs => rw [trimList, dropWhile_trimList]
  rw [trimList, List.rdropWhile_idempotent]

theorem map_py_toUpper_idem (l : List Char) :
    (l.map py_toUpper).map py_toUpper = l.map py_toUpper := by
  rw [List.map_map]
  apply List.map_congr_left
  intro c _
  exact py_toUpper_py_toUpper c

theorem normalize_data (s : String) :
    (normalize s).data = (trimList s.data).map py_toUpper := rfl

theorem normalize_idem (s : String) : normalize (normalize s) = normalize s := by
  show String.mk ((trimList ((trimList s.data).map py_toUpper)).map py_toUpper) =
    String.mk ((trimList s.data).map py_toUpper)
  rw [trimList_map_upper, trimList_trimList, map_py_toUpper_idem]

/-! Behavior of the accumulation loop. -/

theorem processRows_ok (rows : List KrsRow) (hv : ∀ r ∈ rows, validRow r) :
    ∀ ts tb det, processRows rows ts tb det =
      .ok (ts + sumSks rows, tb + sumBobot rows, det ++ detailOf rows) := by
  induction rows with
  | nil =>
    intro ts tb det
    simp [processRows, sumSks, sumBobot, detailOf]
  | cons r rest ih =>
    intro ts tb det
    have hr : validRow r := hv r (List.mem_cons_self r rest)
    obtain ⟨w, hw⟩ : ∃ w, lookupW bobot_nilai (normalize r.nilai) = some w :=
      Option.isSome_iff_exists.mp hr
    have hwW : rowWeight r = w := by
      simp [rowWeight, hw]
    have hrest : ∀ x ∈ rest, validRow x := fun x hx => hv x (List.mem_cons_of_mem r hx)
    simp only [processRows, hw]
    rw [ih hrest]
    simp only [sumSks, sumBobot, detailOf, List.map_cons, List.sum_cons, hwW]
    rw [List.append_assoc, List.singleton_append]
    congr 2
    · rw [add_assoc]
    · rw [add_assoc]

theorem processRows_first_invalid (pre : List KrsRow) (bad : KrsRow)
    (post : List KrsRow) (hv : ∀ r ∈ pre, validRow r)
    (hbad : lookupW bobot_nilai (normalize bad.nilai) = none) :
    ∀ ts tb det, processRows (pre ++ bad :: post) ts tb det =
      .error (.invalidGrade (normalize bad.nilai) grade_keys) := by
  induction pre with
  | nil =>
    intro ts tb det
    simp only [List.nil_append, processRows, hbad]
  | cons r rest ih =>
    intro ts tb det
    have hr : validRow r := hv r (List.mem_cons_self r rest)
    obtain ⟨w, hw⟩ : ∃ w, lookupW bobot_nilai (normalize r.nilai) = some w :=
      Option.isSome_iff_exists.mp hr
    have hrest : ∀ x ∈ rest, validRow x := fun x hx => hv x (List.mem_cons_of_mem r hx)
    simp only [List.cons_append, processRows, hw]
    exact ih hrest _ _ _

theorem processRows_map_norm (rows : List KrsRow) :
    ∀ ts tb det, processRows (rows.map normRow) ts tb det =
      processRows rows ts tb det := by
  induction rows with
  | nil => intro ts tb det; rfl
  | cons r rest ih =>
    intro ts tb det
    simp only [List.map_cons, processRows, normRow, normalize_idem r.nilai]
    cases h : lookupW bobot_nilai (normalize r.nilai) with
    | none => rfl
    | some w => exact ih _ _ _

/-- Success shape of get_ips on a nonempty, fully valid row list with a
nonzero credit-hour total. -/
theorem get_ips_ok (nim : String) (r0 : KrsRow) (rest : List KrsRow)
    (hv : ∀ r ∈ r0 :: rest, validRow r) (hz : sumSks (r0 :: rest) ≠ 0) :
    get_ips nim (r0 :: rest) =
      .ok ⟨r0.nim, r0.nama, r0.jurusan, sumSks (r0 :: rest),
        round2 (sumBobot (r0 :: rest)),
        round2 (sumBobot (r0 :: rest) / (sumSks (r0 :: rest) : ℚ)),
        detailOf (r0 :: rest)⟩ := by
  simp only [get_ips]
  rw [processRows_ok (r0 :: rest) hv 0 0 []]
  simp only [zero_add, List.nil_append]
  rw [if_neg hz]

theorem not_validRow_iff (r : KrsRow) :
    ¬validRow r ↔ lookupW bobot_nilai (normalize r.nilai) = none := by
  simp [validRow]

/-- Failure shape of get_ips when all credit hours sum to zero. -/
theorem get_ips_zeroSks (nim : String) (r0 : KrsRow) (rest : List KrsRow)
    (hv : ∀ r ∈ r0 :: rest, validRow r) (hz : sumSks (r0 :: rest) = 0) :
    get_ips nim (r0 :: rest) = .error .zeroCreditHours := by
  simp only [get_ips]
  rw [processRows_ok (r0 :: rest) hv 0 0 []]
  simp only [zero_add, List.nil_append]
  rw [if_pos hz]

/-- Failure shape of get_ips at the first row whose normalized grade is
outside the weight table. -/
theorem get_ips_invalid (nim : String) (pre : List KrsRow) (bad : KrsRow)
    (post : List KrsRow) (hv : ∀ r ∈ pre, validRow r)
    (hnone : lookupW bobot_nilai (normalize bad.nilai) = none) :
    get_ips nim (pre ++ bad :: post) =
      .error (.invalidGrade (normalize bad.nilai) grade_keys) := by
  cases pre with
  | nil =>
    have h1 := processRows_first_invalid [] bad post (by intro x hx; cases hx)
      hnone 0 0 []
    simp only [List.nil_append] at h1 ⊢
    simp only [get_ips, h1]
  | cons p pre2 =>
    have h1 := processRows_first_invalid (p :: pre2) bad post hv hnone 0 0 []
    simp only [List.cons_append] at h1 ⊢
    simp only [get_ips, h1]

/-- C1: for a row set whose normalized grades all lie in the grade
weight table and whose credit hours sum to a positive total, get_ips
succeeds; total_sks is the sum of the credit hours, total_bobot is the
unrounded sum of weight times hours rounded to two decimals, and ips is
that sum divided by the hour total, rounded to two decimals. -/
theorem claim_C1 (nim : String) (rows : List KrsRow)
    (hv : ∀ r ∈ rows, validRow r) (hpos : 0 < sumSks rows) :
    ∃ res, get_ips nim rows = .ok res ∧
      res.total_sks = sumSks rows ∧
      res.total_bobot = round2 (sumBobot rows) ∧
      res.ips = round2 (sumBobot rows / (sumSks rows : ℚ)) := by
  cases rows with
  | nil => simp [sumSks] at hpos
  | cons r0 rest =>
    exact ⟨_, get_ips_ok nim r0 rest hv (by omega), rfl, rfl, rfl⟩

theorem claim_C1_witness :
    ∃ res, get_ips "22002"
        [⟨"22002", "Budi", "Informatika", "A", 3⟩,
         ⟨"22002", "Budi", "Informatika", "B+", 4⟩] = .ok res ∧
      res.total_sks = sumSks
        [⟨"22002", "Budi", "Informatika", "A", 3⟩,
         ⟨"22002", "Budi", "Informatika", "B+", 4⟩] ∧
      res.total_bobot = round2 (sumBobot
        [⟨"22002", "Budi", "Informatika", "A", 3⟩,
         ⟨"22002", "Budi", "Informatika", "B+", 4⟩]) ∧
      res.ips = round2 (sumBobot
        [⟨"22002", "Budi", "Informatika", "A", 3⟩,
         ⟨"22002", "Budi", "Informatika", "B+", 4⟩] /
          ((sumSks
            [⟨"22002", "Budi", "Informatika", "A", 3⟩,
             ⟨"22002", "Budi", "Informatika", "B+", 4⟩] : ℤ) : ℚ)) :=
  claim_C1 "22002"
    [⟨"22002", "Budi", "Informatika", "A", 3⟩,
     ⟨"22002", "Budi", "Informatika", "B+", 4⟩]
    (by decide) (by decide)

/-- C2: a row set containing a row whose normalized grade is not in the
weight table makes get_ips fail with the invalid-grade error of HTTP
status 400, naming the normalized token and the accepted key list; the
failure happens at the first such row, whatever comes after it, and no
success value is returned. -/
theorem claim_C2 (nim : String) (pre : List KrsRow) (bad : KrsRow)
    (post : List KrsRow) (hv : ∀ r ∈ pre, validRow r)
    (hbad : ¬validRow bad) :
    get_ips nim (pre ++ bad :: post) =
      .error (.invalidGrade (normalize bad.nilai) grade_keys) ∧
    statusOf (.invalidGrade (normalize bad.nilai) grade_keys) = 400 :=
  ⟨get_ips_invalid nim pre bad post hv ((not_validRow_iff bad).mp hbad), rfl⟩

theorem claim_C2_witness :
    get_ips "22001"
        ([⟨"22001", "Ani", "Sistem Informasi", "A", 3⟩] ++
          ⟨"22001", "Ani", "Sistem Informasi", "F", 3⟩ ::
          [⟨"22001", "Ani", "Sistem Informasi", "Z", 2⟩]) =
      .error (.invalidGrade "F" grade_keys) ∧
    statusOf (.invalidGrade "F" grade_keys) = 400 := by
  have h := claim_C2 "22001" [⟨"22001", "Ani", "Sistem Informasi", "A", 3⟩]
    ⟨"22001", "Ani", "Sistem Informasi", "F", 3⟩
    [⟨"22001", "Ani", "Sistem Informasi", "Z", 2⟩] (by decide) (by decide)
  rwa [show normalize "F" = "F" from by decide] at h

/-- C3: when the join returns zero rows, get_ips fails with the
not-found error, mapped to HTTP status 404, and returns no result. -/
theorem claim_C3 (nim : String) :
    get_ips nim [] = .error (.notFound nim) ∧
    statusOf (.notFound nim) = 404 :=
  ⟨rfl, rfl⟩

/-- C4: a nonempty row set with all grades valid whose credit hours sum
to zero makes get_ips fail with the zero-credit-hours error of HTTP
status 400 before any division is attempted. -/
theorem claim_C4 (nim : String) (rows : List KrsRow) (hne : rows ≠ [])
    (hv : ∀ r ∈ rows, validRow r) (hz : sumSks rows = 0) :
    get_ips nim rows = .error .zeroCreditHours ∧
    statusOf IpsError.zeroCreditHours = 400 := by
  cases rows with
  | nil => exact absurd rfl hne
  | cons r0 rest => exact ⟨get_ips_zeroSks nim r0 rest hv hz, rfl⟩

theorem claim_C4_witness :
    get_ips "22003" [⟨"22003", "Cici", "Manajemen", "C", 0⟩] =
      .error .zeroCreditHours ∧
    statusOf IpsError.zeroCreditHours = 400 :=
  claim_C4 "22003" [⟨"22003", "Cici", "Manajemen", "C", 0⟩]
    (by decide) (by decide) (by decide)

/-- C5: grade lookup only sees the trimmed, uppercased token: replacing
every grade by its normalized form changes nothing in the result of
get_ips, and the tokens with a lowercase b and surrounding blanks and
the plain uppercase token both map to weight 3.5. -/
theorem claim_C5 :
    (∀ (nim : String) (rows : List KrsRow),
      get_ips nim (rows.map normRow) = get_ips nim rows) ∧
    lookupW bobot_nilai (normalize " b+ ") = some (7/2) ∧
    lookupW bobot_nilai (normalize "B+") = some (7/2) := by
  refine ⟨?_, ?_, ?_⟩
  · intro nim rows
    cases rows with
    | nil => rfl
    | cons r0 rest =>
      have hp : processRows (normRow r0 :: List.map normRow rest) 0 0 [] =
          processRows (r0 :: rest) 0 0 [] := by
        have h := processRows_map_norm (r0 :: rest) 0 0 []
        simpa using h
      simp only [List.map_cons, get_ips]
      rw [hp]
      simp only [normRow]
  · rw [show normalize " b+ " = "B+" from by decide]
    simp [lookupW, bobot_nilai]
  · rw [show normalize "B+" = "B+" from by decide]
    simp [lookupW, bobot_nilai]

/-- C6: on the two concrete enrollment rows of the spec scenario, grade
A with 3 credit hours and grade B+ with 4, get_ips returns total_sks 7,
total_bobot 26 and ips 3.71. -/
theorem claim_C6 :
    get_ips "22002"
        [⟨"22002", "Budi", "Informatika", "A", 3⟩,
         ⟨"22002", "Budi", "Informatika", "B+", 4⟩] =
      .ok ⟨"22002", "Budi", "Informatika", 7, 26, 371/100,
        [⟨"A", 3, 4, 12⟩, ⟨"B+", 4, 7/2, 14⟩]⟩ := by
  have hw1 : rowWeight ⟨"22002", "Budi", "Informatika", "A", 3⟩ = 4 := by
    simp [rowWeight, show normalize "A" = "A" from by decide, lookupW, bobot_nilai]
  have hw2 : rowWeight ⟨"22002", "Budi", "Informatika", "B+", 4⟩ = 7/2 := by
    simp [rowWeight, show normalize "B+" = "B+" from by decide, lookupW, bobot_nilai]
  have hsks : sumSks
      [⟨"22002", "Budi", "Informatika", "A", 3⟩,
       ⟨"22002", "Budi", "Informatika", "B+", 4⟩] = 7 := by decide
  have hbob : sumBobot
      [⟨"22002", "Budi", "Informatika", "A", 3⟩,
       ⟨"22002", "Budi", "Informatika", "B+", 4⟩] = 26 := by
    simp [sumBobot, hw1, hw2]
    norm_num
  rw [get_ips_ok "22002" ⟨"22002", "Budi", "Informatika", "A", 3⟩
    [⟨"22002", "Budi", "Informatika", "B+", 4⟩] (by decide) (by decide),
    hsks, hbob]
  simp only [Except.ok.injEq, IpsResult.mk.injEq, detailOf, List.map_cons,
    List.map_nil, hw1, hw2, show normalize "A" = "A" from by decide,
    show normalize "B+" = "B+" from by decide]
  norm_num [round2, roundHalfEven]

/-- C7: rounding touches only displayed values: the success body keeps
the credit-hour total unrounded, rounds the unrounded quality-point sum
and the unrounded average to two decimals, and each detail record holds
the normalized grade, the credit hours, the weight, and the rounded
per-row product. -/
theorem claim_C7 (nim : String) (r0 : KrsRow) (rest : List KrsRow)
    (hv : ∀ r ∈ r0 :: rest, validRow r) (hz : sumSks (r0 :: rest) ≠ 0) :
    get_ips nim (r0 :: rest) =
      .ok ⟨r0.nim, r0.nama, r0.jurusan, sumSks (r0 :: rest),
        round2 (sumBobot (r0 :: rest)),
        round2 (sumBobot (r0 :: rest) / (sumSks (r0 :: rest) : ℚ)),
        (r0 :: rest).map fun r =>
          ⟨normalize r.nilai, r.sks, rowWeight r,
            round2 (rowWeight r * (r.sks : ℚ))⟩⟩ :=
  get_ips_ok nim r0 rest hv hz

theorem claim_C7_witness :
    get_ips "22002"
        (⟨"22002", "Budi", "Informatika", "A", 3⟩ ::
          [⟨"22002", "Budi", "Informatika", "B+", 4⟩]) =
      .ok ⟨"22002", "Budi", "Informatika",
        sumSks (⟨"22002", "Budi", "Informatika", "A", 3⟩ ::
          [⟨"22002", "Budi", "Informatika", "B+", 4⟩]),
        round2 (sumBobot (⟨"22002", "Budi", "Informatika", "A", 3⟩ ::
          [⟨"22002", "Budi", "Informatika", "B+", 4⟩])),
        round2 (sumBobot (⟨"22002", "Budi", "Informatika", "A", 3⟩ ::
            [⟨"22002", "Budi", "Informatika", "B+", 4⟩]) /
          ((sumSks (⟨"22002", "Budi", "Informatika", "A", 3⟩ ::
            [⟨"22002", "Budi", "Informatika", "B+", 4⟩]) : ℤ) : ℚ)),
        (⟨"22002", "Budi", "Informatika", "A", 3⟩ ::
          [⟨"22002", "Budi", "Informatika", "B+", 4⟩]).map fun r =>
            ⟨normalize r.nilai, r.sks, rowWeight r,
              round2 (rowWeight r * (r.sks : ℚ))⟩⟩ :=
  claim_C7 "22002" ⟨"22002", "Budi", "Informatika", "A", 3⟩
    [⟨"22002", "Budi", "Informatika", "B+", 4⟩] (by decide) (by decide)

/-- C8: the student listing returns every stored row unchanged and in
storage order. -/
theorem claim_C8 (rows : List MhsRow) : get_mahasiswas rows = rows := by
  unfold get_mahasiswas
  induction rows with
  | nil => rfl
  | cons r rest ih => rw [List.map_cons, ih]

/-- C9: with every grade valid, the zero-credit-hours error occurs
exactly when the credit hours sum to zero; all grades E with a positive
hour total is not an error and produces ips 0. -/
theorem claim_C9 (nim : String) (r0 : KrsRow) (rest : List KrsRow)
    (hv : ∀ r ∈ r0 :: rest, validRow r) :
    (get_ips nim (r0 :: rest) = .error .zeroCreditHours ↔
      sumSks (r0 :: rest) = 0) ∧
    ((∀ r ∈ r0 :: rest, normalize r.nilai = "E") →
      0 < sumSks (r0 :: rest) →
      ∃ res, get_ips nim (r0 :: rest) = .ok res ∧ res.ips = 0) := by
  constructor
  · constructor
    · intro h
      by_contra hz
      rw [get_ips_ok nim r0 rest hv hz] at h
      simp at h
    · exact get_ips_zeroSks nim r0 rest hv
  · intro hE hpos
    have hz : sumSks (r0 :: rest) ≠ 0 := by omega
    refine ⟨_, get_ips_ok nim r0 rest hv hz, ?_⟩
    have hall : ∀ x ∈ (r0 :: rest).map fun r => rowWeight r * (r.sks : ℚ),
        x = 0 := by
      intro x hx
      obtain ⟨r, hr, rfl⟩ := List.mem_map.mp hx
      simp only [rowWeight, hE r hr,
        show lookupW bobot_nilai "E" = some 0 from by decide]
      simp
    have hb : sumBobot (r0 :: rest) = 0 := List.sum_eq_zero hall
    show round2 (sumBobot (r0 :: rest) / ((sumSks (r0 :: rest) : ℤ) : ℚ)) = 0
    rw [hb, zero_div]
    norm_num [round2, roundHalfEven]

theorem claim_C9_witness :
    (get_ips "22005" (⟨"22005", "Eka", "Hukum", "E", 3⟩ ::
        [⟨"22005", "Eka", "Hukum", "E", 2⟩]) =
      .error .zeroCreditHours ↔
      sumSks (⟨"22005", "Eka", "Hukum", "E", 3⟩ ::
        [⟨"22005", "Eka", "Hukum", "E", 2⟩]) = 0) ∧
    ((∀ r ∈ ((⟨"22005", "Eka", "Hukum", "E", 3⟩ : KrsRow) ::
        [⟨"22005", "Eka", "Hukum", "E", 2⟩]), normalize r.nilai = "E") →
      0 < sumSks (⟨"22005", "Eka", "Hukum", "E", 3⟩ ::
        [⟨"22005", "Eka", "Hukum", "E", 2⟩]) →
      ∃ res, get_ips "22005" (⟨"22005", "Eka", "Hukum", "E", 3⟩ ::
        [⟨"22005", "Eka", "Hukum", "E", 2⟩]) = .ok res ∧ res.ips = 0) :=
  claim_C9 "22005" ⟨"22005", "Eka", "Hukum", "E", 3⟩
    [⟨"22005", "Eka", "Hukum", "E", 2⟩] (by decide)

/-- C10: the invalid-grade error names the normalized token, not the
raw stored one: a first row whose grade is unknown yields the error
carrying the trimmed, uppercased form of its token. -/
theorem claim_C10 (nim : String) (r : KrsRow) (rest : List KrsRow)
    (hbad : ¬validRow r) :
    get_ips nim (r :: rest) =
      .error (.invalidGrade (normalize r.nilai) grade_keys) := by
  have h := get_ips_invalid nim [] r rest (by intro x hx; cases hx)
    ((not_validRow_iff r).mp hbad)
  simpa using h

theorem claim_C10_witness :
    get_ips "22004" [⟨"22004", "Dodi", "Akuntansi", " f ", 2⟩] =
      .error (.invalidGrade "F" grade_keys) := by
  have h := claim_C10 "22004" ⟨"22004", "Dodi", "Akuntansi", " f ", 2⟩ []
    (by decide)
  rwa [show normalize " f " = "F" from by decide] at h

end AcadService
